import Mathlib

/-!
# kubernetes/contrib: three small programs

* `Dynamic`  : `cluster-autoscaler/dynamic/config.go`
* `Mungers`  : `mungegithub/mungers/assign-reassign-handler.go`
* `PromToSd` : `prometheus-to-sd/main.go`

Functions of other packages (`json.Unmarshal`, `nodegroup.Spec.Validate`,
`mungerutil.IsValidUser`, `translator.*`, `config.*`, ...) are parameters of the
definitions that call them.  Logging calls (`glog.Infof`, `glog.V`) have no
influence on control flow or results and are left out; `glog.Fatalf` ends the
process and is an outcome of its own.
-/

set_option autoImplicit false

namespace Dynamic

/-- The fields of a `v1.ConfigMap` that `ConfigFromConfigMap` reads.  `Data` is a
Go `map[string]string`: a key is either absent or bound to a string. -/
structure ConfigMap where
  Data : String → Option String
  ResourceVersion : String

/-- Go map indexing `m[key]`: the value stored under the key, the zero value `""`
when the key is absent. -/
def mapIndex (m : String → Option String) (key : String) : String :=
  match m key with
  | some v => v
  | none => ""

/-- Settings of cluster-autoscaler; `Spec` stands for `nodegroup.Spec`. -/
structure Settings (Spec : Type) where
  NodeGroups : List Spec

/-- Config: the embedded `Settings` and the unexported `resourceVersion`. -/
structure Config (Spec : Type) where
  toSettings : Settings Spec
  resourceVersion : String

/-- The error built by `Config.validate`: `invalid node group: %v`. -/
inductive ValidateError (V : Type) where
  | invalidNodeGroup (err : V)

/-- The three errors built by `ConfigFromConfigMap` with `fmt.Errorf`. -/
inductive ConfigError (E V : Type) where
  | missingSettings (settingsInJson : String)
  | parseFailed (err : E)
  | invalidConfig (err : ValidateError V)

/-- The loop of `Config.validate` over a list of node groups: the first group whose
`Validate` returns an error ends the loop with that error wrapped. -/
def validateGroups {Spec V : Type} (Validate : Spec → Option V) :
    List Spec → Option (ValidateError V)
  | [] => none
  | g :: rest =>
    match Validate g with
    | some err => some (ValidateError.invalidNodeGroup err)
    | none => validateGroups Validate rest

/-- The method `Config.validate`. -/
def Config.validate {Spec V : Type} (Validate : Spec → Option V) (c : Config Spec) :
    Option (ValidateError V) :=
  validateGroups Validate c.toSettings.NodeGroups

/-- The function `ConfigFromConfigMap`.  `Unmarshal s` is
`json.Unmarshal([]byte(s), &settings)` on a fresh `Settings{}`: the filled settings
or the error.  The result is Go's pair `(*Config, error)`. -/
def ConfigFromConfigMap {Spec E V : Type} (Unmarshal : String → Except E (Settings Spec))
    (Validate : Spec → Option V) (configmap : ConfigMap) :
    Option (Config Spec) × Option (ConfigError E V) :=
  let settingsInJson := mapIndex configmap.Data "settings"
  if settingsInJson = "" then
    (none, some (ConfigError.missingSettings settingsInJson))
  else
    match Unmarshal settingsInJson with
    | Except.error err => (none, some (ConfigError.parseFailed err))
    | Except.ok settings =>
      let config : Config Spec :=
        { toSettings := settings, resourceVersion := configmap.ResourceVersion }
      match config.validate Validate with
      | some err => (none, some (ConfigError.invalidConfig err))
      | none => (some config, none)

/-- The method `Config.VersionMismatchesAgainst`. -/
def Config.VersionMismatchesAgainst {Spec : Type} (c other : Config Spec) : Bool :=
  c.resourceVersion != other.resourceVersion

end Dynamic

namespace Mungers

/-- The constant `assign_command`. -/
def assign_command : String := "/assign"

/-- The constant `reassign_command`. -/
def reassign_command : String := "/reassign"

/-- A non-nil Go `*int`: the address of an int variable and the integer stored
there. -/
structure IntPtr where
  addr : Nat
  val : Int
  deriving DecidableEq

/-- Go's `==` on two `*int`: both nil, or both pointing to the same variable.  The
integers pointed to are not read. -/
def ptrEq : Option IntPtr → Option IntPtr → Bool
  | none, none => true
  | some p, some q => p.addr == q.addr
  | _, _ => false

/-- The fields of go-github's `User` that the handler reads: `Login *string` and
`ID *int` (`none` is the nil pointer). -/
structure User where
  Login : Option String
  ID : Option IntPtr
  deriving DecidableEq

/-- The fields of go-github's `IssueComment` that the handler reads: `User` is a
`*User` that may be nil, `Body` the string behind `*comment.Body`. -/
structure IssueComment where
  User : Option User
  Body : String

/-- The field of `obj.Issue` read by the handler. -/
structure Issue where
  Assignees : List User

/-- The part of `github.MungeObject` read by the handler. -/
structure MungeObject where
  Issue : Issue

/-- Functions the handler calls that live in other packages or files:
`mungerutil.IsValidUser`, `getFields`, `strings.ToLower`, `obj.ListFiles`,
`getPotentialOwners` (with `h.features`; its `weightMap` result as a Go map from
string keys to weights) and the method `User.String`. -/
structure Env (Err Files : Type) where
  IsValidUser : Option User → Bool
  getFields : String → List String
  ToLower : String → String
  ListFiles : MungeObject → Except Err Files
  getPotentialOwners : MungeObject → Files → String → Option Int
  userString : User → String

/-- The function `isValidReviewer`: the key `commenter.String()` is present in the
weight map. -/
def isValidReviewer (userString : User → String) (potential_owners : String → Option Int)
    (commenter : User) : Bool :=
  match potential_owners (userString commenter) with
  | some _ => true
  | none => false

/-- The function `isAssignee`.  `someUser` is a `*User`; the result `none` is the
run-time panic of reading `someUser.Login` through a nil pointer, which Go reaches
only for an assignee whose own `Login` is not nil (the `||` short-circuits). -/
def isAssignee : List User → Option User → Option Bool
  | [], _ => some false
  | assignee :: rest, someUser =>
    match assignee.Login with
    | none => isAssignee rest someUser
    | some assigneeLogin =>
      match someUser with
      | none => none
      | some u =>
        match u.Login with
        | none => isAssignee rest someUser
        | some userLogin =>
          if assigneeLogin = userLogin ∧ ptrEq u.ID assignee.ID = true then some true
          else isAssignee rest someUser

/-- The function `isDibsComment`: exactly one field, which lower-cased is
`assign_command`. -/
def isDibsComment (ToLower : String → String) : List String → Bool
  | [field] => ToLower field == assign_command
  | _ => false

/-- The function `isReassignComment`: exactly one field, which lower-cased is
`reassign_command`. -/
def isReassignComment (ToLower : String → String) : List String → Bool
  | [field] => ToLower field == reassign_command
  | _ => false

/-- What `assignOrRemove` has produced: the two `sets.String`, the returned error, and
the comments it wrote with `obj.WriteComment` (the user string put into
`notReviewerInTree`), oldest first. -/
structure Result (Err : Type) where
  toAssign : Finset String
  toUnassign : Finset String
  err : Option Err
  written : List String

/-- The dereference `*comment.User.Login`: a run-time panic (`none`) when the user or
the login is nil. -/
def derefLogin (user : Option User) : Option String :=
  match user with
  | none => none
  | some u => u.Login

/-- One iteration of the loop of `assignOrRemove` on `comment`; `none` is a run-time
panic (nil pointer dereference). -/
def commentStep {Err Files : Type} (env : Env Err Files) (obj : MungeObject)
    (checkValid : Bool) (potential_owners : String → Option Int) (acc : Result Err)
    (comment : IssueComment) : Option (Result Err) :=
  if env.IsValidUser comment.User = false then some acc
  else
    let fields := env.getFields comment.Body
    let afterDibs : Option (Result Err) :=
      if isDibsComment env.ToLower fields = true then
        if checkValid = false then
          (derefLogin comment.User).map (fun login =>
            { acc with toAssign := insert login acc.toAssign })
        else
          match comment.User with
          | none => none
          | some commenter =>
            if isValidReviewer env.userString potential_owners commenter = true then
              (derefLogin comment.User).map (fun login =>
                { acc with toAssign := insert login acc.toAssign })
            else
              some { acc with written := acc.written ++ [env.userString commenter] }
      else some acc
    match afterDibs with
    | none => none
    | some acc₁ =>
      if isReassignComment env.ToLower fields = true then
        match isAssignee obj.Issue.Assignees comment.User with
        | none => none
        | some true =>
          (derefLogin comment.User).map (fun login =>
            { acc₁ with toUnassign := insert login acc₁.toUnassign })
        | some false => some acc₁
      else some acc₁

/-- The loop `for i := len(comments) - 1; i >= 0; i--` run on the comments still to
visit, given last-first. -/
def commentLoop {Err Files : Type} (env : Env Err Files) (obj : MungeObject)
    (checkValid : Bool) (potential_owners : String → Option Int) :
    Result Err → List IssueComment → Option (Result Err)
  | acc, [] => some acc
  | acc, comment :: rest =>
    match commentStep env obj checkValid potential_owners acc comment with
    | none => none
    | some acc₁ => commentLoop env obj checkValid potential_owners acc₁ rest

/-- The method `assignOrRemove`; `none` is a run-time panic. -/
def assignOrRemove {Err Files : Type} (env : Env Err Files) (obj : MungeObject)
    (comments : List IssueComment) (checkValid : Bool) : Option (Result Err) :=
  let start : Result Err := { toAssign := ∅, toUnassign := ∅, err := none, written := [] }
  if checkValid = true then
    match env.ListFiles obj with
    | Except.error err => some { start with err := some err }
    | Except.ok fileList =>
      commentLoop env obj checkValid (env.getPotentialOwners obj fileList) start
        comments.reverse
  else
    commentLoop env obj checkValid (fun _ => none) start comments.reverse

/-- What puts `login` into `toAssign`: `comment` is by a valid user whose login is
`login`, and its fields are the single field `/assign` compared case-insensitively. -/
def commentAssigns {Err Files : Type} (env : Env Err Files) (comment : IssueComment)
    (login : String) : Prop :=
  ∃ usr field, comment.User = some usr ∧ env.IsValidUser comment.User = true ∧
    usr.Login = some login ∧ env.getFields comment.Body = [field] ∧
    env.ToLower field = "/assign"

/-- What puts `login` into `toUnassign`: `comment` is by a valid user whose login is
`login`, its fields are the single field `/reassign` compared case-insensitively, and
`isAssignee` holds: some assignee has the same login and an `ID` pointer equal (as a
pointer) to the commenter's. -/
def commentUnassigns {Err Files : Type} (env : Env Err Files) (obj : MungeObject)
    (comment : IssueComment) (login : String) : Prop :=
  ∃ usr field, comment.User = some usr ∧ env.IsValidUser comment.User = true ∧
    usr.Login = some login ∧ env.getFields comment.Body = [field] ∧
    env.ToLower field = "/reassign" ∧
    ∃ assignee ∈ obj.Issue.Assignees, assignee.Login = some login ∧
      ptrEq usr.ID assignee.ID = true

end Mungers

namespace PromToSd

/-- The fields of `config.SourceConfig` that `main` reads. -/
structure SourceConfig where
  Component : String
  Host : String
  Port : Nat
  Whitelisted : List String
  deriving DecidableEq

/-- The command-line flags after `flag.Parse()`; `Uri` is the element type of
`flags.Uris`.  `port` is the `uint` of `--target-port`. -/
structure Flags (Uri : Type) where
  host : String
  port : Nat
  component : String
  resolution : Nat
  metricsPrefix : String
  whitelisted : String
  apioverride : String
  source : List Uri

/-- The functions `main` calls during start-up.  `New` is the result pair of
`v3.New(client)`: the `*v3.Service` (`none` is nil) and the error (`none` is nil);
`setBasePath` is the assignment to `stackdriverService.BasePath`. -/
structure Startup (Uri Err Gce Svc : Type) where
  ParseSourceConfig : Uri → Except Err SourceConfig
  NewSourceConfig : String → String → String → String → Except Err SourceConfig
  GetGceConfig : String → Except Err Gce
  New : Option Svc × Option Err
  setBasePath : Svc → String → Svc

/-- The five `glog.Fatalf` calls of `main`, each with the values it prints. -/
inductive Fatal (Uri Err : Type) where
  | sourceFlag (c : Uri) (err : Err)
  | componentFlag (err : Err)
  | gceConfig (err : Err)
  | stackdriverClient (err : Err)
  | noSources

/-- A goroutine started by `main`: the `sourceConfig` passed to the function literal
and the two variables of `main` it refers to. -/
structure Worker (Gce Svc : Type) where
  gceConf : Gce
  stackdriverService : Option Svc
  sourceConfig : SourceConfig

/-- How `main` ends its start-up: a `glog.Fatalf` (the process exits), the run-time
panic of the assignment to `BasePath` through a nil service (the process exits), or
the workers it has started before blocking for ever. -/
inductive Outcome (Uri Err Gce Svc : Type) where
  | fatal (f : Fatal Uri Err)
  | nilDereference
  | running (workers : List (Worker Gce Svc))

/-- The goroutines an outcome has started. -/
def Outcome.started {Uri Err Gce Svc : Type} : Outcome Uri Err Gce Svc →
    List (Worker Gce Svc)
  | Outcome.running workers => workers
  | _ => []

/-- The loop over `source`: each parsed configuration is appended to `sourceConfigs`,
the first parse error is fatal. -/
def parseSources {Uri Err : Type} (ParseSourceConfig : Uri → Except Err SourceConfig) :
    List Uri → List SourceConfig → Except (Fatal Uri Err) (List SourceConfig)
  | [], sourceConfigs => Except.ok sourceConfigs
  | c :: rest, sourceConfigs =>
    match ParseSourceConfig c with
    | Except.error err => Except.error (Fatal.sourceFlag c err)
    | Except.ok sourceConfig =>
      parseSources ParseSourceConfig rest (sourceConfigs ++ [sourceConfig])

/-- The call `strconv.FormatUint(uint64(*port), 10)`. -/
def portStr (port : Nat) : String := Nat.repr port

/-- The block `if *component != ""` of `main`. -/
def addComponent {Uri Err Gce Svc : Type} (x : Startup Uri Err Gce Svc) (f : Flags Uri)
    (sourceConfigs : List SourceConfig) : Except (Fatal Uri Err) (List SourceConfig) :=
  if f.component ≠ "" then
    match x.NewSourceConfig f.component f.host (portStr f.port) f.whitelisted with
    | Except.error err => Except.error (Fatal.componentFlag err)
    | Except.ok sourceConfig => Except.ok (sourceConfigs ++ [sourceConfig])
  else Except.ok sourceConfigs

/-- The creation of the Stackdriver client in `main`: the override of `BasePath` comes
before the test of `err`, so with a nil service and a non-empty `--api-override` the
assignment panics; `Except.ok none` is that panic. -/
def createService {Uri Err Gce Svc : Type} (x : Startup Uri Err Gce Svc) (f : Flags Uri) :
    Except (Fatal Uri Err) (Option (Option Svc)) :=
  let stackdriverService := x.New.1
  let err := x.New.2
  let overridden : Option (Option Svc) :=
    if f.apioverride ≠ "" then
      match stackdriverService with
      | none => none
      | some service => some (some (x.setBasePath service f.apioverride))
    else some stackdriverService
  match overridden with
  | none => Except.ok none
  | some service =>
    match err with
    | some e => Except.error (Fatal.stackdriverClient e)
    | none => Except.ok (some service)

/-- The function `main` after `flag.Parse()`, up to the point where it blocks. -/
def main {Uri Err Gce Svc : Type} (x : Startup Uri Err Gce Svc) (f : Flags Uri) :
    Outcome Uri Err Gce Svc :=
  match parseSources x.ParseSourceConfig f.source [] with
  | Except.error e => Outcome.fatal e
  | Except.ok parsed =>
    match addComponent x f parsed with
    | Except.error e => Outcome.fatal e
    | Except.ok sourceConfigs =>
      match x.GetGceConfig f.metricsPrefix with
      | Except.error err => Outcome.fatal (Fatal.gceConfig err)
      | Except.ok gceConf =>
        match createService x f with
        | Except.error e => Outcome.fatal e
        | Except.ok none => Outcome.nilDereference
        | Except.ok (some stackdriverService) =>
          if sourceConfigs.length = 0 then Outcome.fatal Fatal.noSources
          else
            Outcome.running (sourceConfigs.map (fun sourceConfig =>
              { gceConf := gceConf, stackdriverService := stackdriverService,
                sourceConfig := sourceConfig }))

/-- What the three functions of package `translator` return on one tick of one
worker.  Each tick has its own responses, so the functions may depend on time, on
earlier calls and on the other workers. -/
structure Tick (Err Metrics TS Gce : Type) where
  GetPrometheusMetrics : String → Nat → Except Err Metrics
  TranslatePrometheusToStackdriver : Gce → String → Metrics → List String → TS

/-- A call of a function of package `translator`, with its arguments. -/
inductive Call (Metrics TS Gce Svc : Type) where
  | GetPrometheusMetrics (host : String) (port : Nat)
  | TranslatePrometheusToStackdriver (gceConf : Gce) (component : String)
      (metrics : Metrics) (whitelisted : List String)
  | SendToStackdriver (service : Option Svc) (gceConf : Gce) (ts : TS)

/-- The body of the loop `for range time.Tick(*resolution)` of a worker: the calls it
makes on one tick, in order.  On a scrape error the body ends at `continue`. -/
def Worker.tick {Err Metrics TS Gce Svc : Type} (w : Worker Gce Svc)
    (t : Tick Err Metrics TS Gce) : List (Call Metrics TS Gce Svc) :=
  match t.GetPrometheusMetrics w.sourceConfig.Host w.sourceConfig.Port with
  | Except.error _ =>
    [Call.GetPrometheusMetrics w.sourceConfig.Host w.sourceConfig.Port]
  | Except.ok metrics =>
    let ts := t.TranslatePrometheusToStackdriver w.gceConf w.sourceConfig.Component
      metrics w.sourceConfig.Whitelisted
    [Call.GetPrometheusMetrics w.sourceConfig.Host w.sourceConfig.Port,
     Call.TranslatePrometheusToStackdriver w.gceConf w.sourceConfig.Component metrics
       w.sourceConfig.Whitelisted,
     Call.SendToStackdriver w.stackdriverService w.gceConf ts]

/-- The loop of a worker over the ticks given: the calls of each tick, tick by
tick. -/
def Worker.run {Err Metrics TS Gce Svc : Type} (w : Worker Gce Svc) :
    List (Tick Err Metrics TS Gce) → List (List (Call Metrics TS Gce Svc))
  | [] => []
  | t :: rest => w.tick t :: w.run rest

/-- Whether a call is a `SendToStackdriver`. -/
def Call.isSend {Metrics TS Gce Svc : Type} : Call Metrics TS Gce Svc → Bool
  | Call.SendToStackdriver _ _ _ => true
  | _ => false

/-- Whether a call is a `TranslatePrometheusToStackdriver`. -/
def Call.isTranslate {Metrics TS Gce Svc : Type} : Call Metrics TS Gce Svc → Bool
  | Call.TranslatePrometheusToStackdriver _ _ _ _ => true
  | _ => false

/-- Whether the scrape of a worker succeeds on a tick. -/
def Worker.scrapeOk {Err Metrics TS Gce Svc : Type} (w : Worker Gce Svc)
    (t : Tick Err Metrics TS Gce) : Bool :=
  match t.GetPrometheusMetrics w.sourceConfig.Host w.sourceConfig.Port with
  | Except.ok _ => true
  | Except.error _ => false

end PromToSd

/-! ## Concrete inputs on which the theorems are run -/

namespace Dynamic

/-- A `json.Unmarshal` stand-in for the examples: `[]` parses to no node group, `[7]`
to the single node group `7`, anything else is a syntax error. -/
def exampleUnmarshal (s : String) : Except String (Settings Nat) :=
  if s = "[]" then Except.ok { NodeGroups := [] }
  else if s = "[7]" then Except.ok { NodeGroups := [7] }
  else Except.error "invalid character"

/-- A `Validate` stand-in for the examples: node group `0` is invalid. -/
def exampleValidate (g : Nat) : Option String :=
  if g = 0 then some "min size must be >= 1" else none

/-- A configmap with settings `[7]` and the given resource version. -/
def exampleConfigMap (version : String) : ConfigMap :=
  { Data := fun key => if key = "settings" then some "[7]" else none,
    ResourceVersion := version }

/-- The config that `ConfigFromConfigMap` builds from `exampleConfigMap version`. -/
def exampleConfig (version : String) : Config Nat :=
  { toSettings := { NodeGroups := [7] }, resourceVersion := version }

end Dynamic

namespace Mungers

/-- An `IsValidUser` for the examples: the user and its login are not nil. -/
def exampleIsValidUser : Option User → Bool
  | some usr => usr.Login.isSome
  | none => false

/-- A `getFields` stand-in for the examples: the body split at blanks. -/
def exampleGetFields (body : String) : List String :=
  ((body.data.splitOn ' ').filter (fun cs => !cs.isEmpty)).map String.mk

/-- The environment of the examples. -/
def exampleEnv : Env String Nat :=
  { IsValidUser := exampleIsValidUser,
    getFields := exampleGetFields,
    ToLower := fun s => String.mk (s.data.map Char.toLower),
    ListFiles := fun _ => Except.ok 0,
    getPotentialOwners := fun _ _ _ => none,
    userString := fun u => u.Login.getD "" }

/-- An issue assigned to `bob` (GitHub id 7), as decoded from the issue: the `ID`
pointer is the address `0x10`. -/
def exampleObj : MungeObject :=
  { Issue := { Assignees := [{ Login := some "bob", ID := some { addr := 16, val := 7 } }] } }

/-- A `/reassign` comment by `bob` (GitHub id 7) as decoded from the list of comments:
its `ID` is another int variable, at address `0x20`, holding the same 7. -/
def bobReassigns : IssueComment :=
  { User := some { Login := some "bob", ID := some { addr := 32, val := 7 } },
    Body := "/reassign" }

/-- Four comments: `alice` assigns herself, a user without `ID` and login `dave`
writes `/REASSIGN`, a user without login writes `/assign`, and `carol` writes
something else. -/
def exampleComments : List IssueComment :=
  [{ User := some { Login := some "alice", ID := some { addr := 48, val := 1 } },
     Body := "/Assign" },
   { User := some { Login := some "dave", ID := none }, Body := "/REASSIGN" },
   { User := some { Login := none, ID := some { addr := 64, val := 3 } },
     Body := "/assign" },
   { User := some { Login := some "carol", ID := some { addr := 80, val := 4 } },
     Body := "/assign me" }]

end Mungers

namespace PromToSd

/-- A worker for the source `kubelet` on `localhost:10255`. -/
def exampleWorker : Worker Nat Nat :=
  { gceConf := 1, stackdriverService := some 2,
    sourceConfig :=
      { Component := "kubelet", Host := "localhost", Port := 10255,
        Whitelisted := ["a", "b"] } }

/-- A tick on which the scrape fails. -/
def failingTick : Tick String Nat Nat Nat :=
  { GetPrometheusMetrics := fun _ _ => Except.error "connection refused",
    TranslatePrometheusToStackdriver := fun _ _ metrics _ => metrics + 1 }

/-- A tick on which the scrape returns the metrics `7`. -/
def okTick : Tick String Nat Nat Nat :=
  { GetPrometheusMetrics := fun _ _ => Except.ok 7,
    TranslatePrometheusToStackdriver := fun _ _ metrics _ => metrics + 1 }

/-- Start-up functions for the examples: every `--source` value fails to parse except
`0`, the GCE config is `1`, and `v3.New` fails with a nil service. -/
def exampleStartup : Startup Nat String Nat Nat :=
  { ParseSourceConfig := fun c =>
      if c = 0 then
        Except.ok { Component := "kubelet", Host := "localhost", Port := 10255,
                    Whitelisted := [] }
      else Except.error "bad source",
    NewSourceConfig := fun component host _ _ =>
      Except.ok { Component := component, Host := host, Port := 0, Whitelisted := [] },
    GetGceConfig := fun _ => Except.ok 1,
    New := (none, some "client is nil"),
    setBasePath := fun service _ => service }

/-- Start-up functions for the examples where everything succeeds: the `--source`
value `n` parses to component `kubelet` on port `n`, and `BasePath` is stored by
adding 100 to the service. -/
def workingStartup : Startup Nat String Nat Nat :=
  { ParseSourceConfig := fun c =>
      Except.ok { Component := "kubelet", Host := "localhost", Port := c,
                  Whitelisted := [] },
    NewSourceConfig := fun component host port whitelisted =>
      Except.ok { Component := component, Host := host ++ ":" ++ port, Port := 0,
                  Whitelisted := [whitelisted] },
    GetGceConfig := fun _ => Except.ok 1,
    New := (some 2, none),
    setBasePath := fun service _ => service + 100 }

/-- Flags with two `--source` values and `--component etcd --target-port 2379`. -/
def workingFlags : Flags Nat :=
  { host := "localhost", port := 2379, component := "etcd", resolution := 60,
    metricsPrefix := "container.googleapis.com/master", whitelisted := "a,b",
    apioverride := "http://x", source := [10255, 10250] }

/-- Flags with no `--source`, an empty `--component` and the given `--api-override`. -/
def exampleFlags (apioverride : String) : Flags Nat :=
  { host := "localhost", port := 80, component := "", resolution := 60,
    metricsPrefix := "container.googleapis.com/master", whitelisted := "",
    apioverride := apioverride, source := [] }

end PromToSd

namespace Dynamic

variable {Spec E V : Type}

theorem validateGroups_eq_none (Validate : Spec → Option V) (gs : List Spec) :
    validateGroups Validate gs = none ↔ ∀ g ∈ gs, Validate g = none := by
  induction gs with
  | nil => simp [validateGroups]
  | cons g rest ih =>
    cases hg : Validate g with
    | none => simp [validateGroups, hg, ih]
    | some err => simp [validateGroups, hg]

end Dynamic

namespace Dynamic

variable {Spec E V : Type}

/-- C5: `ConfigFromConfigMap` returns an error and no config exactly when the data has
no non-empty value under the key "settings", or that value fails to unmarshal, or some
node group of the parsed settings fails `Validate`; in every other case it returns no
error and the config made of the parsed settings and the configmap's
`ResourceVersion`. -/
theorem ConfigFromConfigMap_error_iff (Unmarshal : String → Except E (Settings Spec))
    (Validate : Spec → Option V) (configmap : ConfigMap) :
    (((ConfigFromConfigMap Unmarshal Validate configmap).2.isSome = true ∧
        (ConfigFromConfigMap Unmarshal Validate configmap).1 = none) ↔
      ((configmap.Data "settings" = none ∨ configmap.Data "settings" = some "") ∨
        (∃ v err, configmap.Data "settings" = some v ∧ Unmarshal v = Except.error err) ∨
        (∃ v settings g, configmap.Data "settings" = some v ∧
          Unmarshal v = Except.ok settings ∧ g ∈ settings.NodeGroups ∧
          (Validate g).isSome = true))) ∧
    ((((configmap.Data "settings" = none ∨ configmap.Data "settings" = some "") ∨
        (∃ v err, configmap.Data "settings" = some v ∧ Unmarshal v = Except.error err) ∨
        (∃ v settings g, configmap.Data "settings" = some v ∧
          Unmarshal v = Except.ok settings ∧ g ∈ settings.NodeGroups ∧
          (Validate g).isSome = true)) ∧
      (ConfigFromConfigMap Unmarshal Validate configmap).2.isSome = true ∧
      (ConfigFromConfigMap Unmarshal Validate configmap).1 = none) ∨
     (¬ ((configmap.Data "settings" = none ∨ configmap.Data "settings" = some "") ∨
        (∃ v err, configmap.Data "settings" = some v ∧ Unmarshal v = Except.error err) ∨
        (∃ v settings g, configmap.Data "settings" = some v ∧
          Unmarshal v = Except.ok settings ∧ g ∈ settings.NodeGroups ∧
          (Validate g).isSome = true)) ∧
      ∃ v settings, configmap.Data "settings" = some v ∧ v ≠ "" ∧
        Unmarshal v = Except.ok settings ∧
        (∀ g ∈ settings.NodeGroups, Validate g = none) ∧
        ConfigFromConfigMap Unmarshal Validate configmap =
          (some { toSettings := settings, resourceVersion := configmap.ResourceVersion },
            none))) := by
  have hdich :
      (((configmap.Data "settings" = none ∨ configmap.Data "settings" = some "") ∨
        (∃ v err, configmap.Data "settings" = some v ∧ Unmarshal v = Except.error err) ∨
        (∃ v settings g, configmap.Data "settings" = some v ∧
          Unmarshal v = Except.ok settings ∧ g ∈ settings.NodeGroups ∧
          (Validate g).isSome = true)) ∧
      (ConfigFromConfigMap Unmarshal Validate configmap).2.isSome = true ∧
      (ConfigFromConfigMap Unmarshal Validate configmap).1 = none) ∨
     (¬ ((configmap.Data "settings" = none ∨ configmap.Data "settings" = some "") ∨
        (∃ v err, configmap.Data "settings" = some v ∧ Unmarshal v = Except.error err) ∨
        (∃ v settings g, configmap.Data "settings" = some v ∧
          Unmarshal v = Except.ok settings ∧ g ∈ settings.NodeGroups ∧
          (Validate g).isSome = true)) ∧
      ∃ v settings, configmap.Data "settings" = some v ∧ v ≠ "" ∧
        Unmarshal v = Except.ok settings ∧
        (∀ g ∈ settings.NodeGroups, Validate g = none) ∧
        ConfigFromConfigMap Unmarshal Validate configmap =
          (some { toSettings := settings, resourceVersion := configmap.ResourceVersion },
            none)) := by
    cases hd : configmap.Data "settings" with
    | none =>
      refine Or.inl ⟨Or.inl (Or.inl rfl), ?_, ?_⟩ <;>
        simp [ConfigFromConfigMap, mapIndex, hd]
    | some v =>
      by_cases hv : v = ""
      · subst hv
        refine Or.inl ⟨Or.inl (Or.inr rfl), ?_, ?_⟩ <;>
          simp [ConfigFromConfigMap, mapIndex, hd]
      · cases hu : Unmarshal v with
        | error err =>
          refine Or.inl ⟨Or.inr (Or.inl ⟨v, err, rfl, hu⟩), ?_, ?_⟩ <;>
            simp [ConfigFromConfigMap, mapIndex, hd, hv, hu]
        | ok settings =>
          cases hval : validateGroups Validate settings.NodeGroups with
          | some err =>
            have hex : ∃ g ∈ settings.NodeGroups, (Validate g).isSome = true := by
              by_contra hcon
              push_neg at hcon
              have hall : ∀ g ∈ settings.NodeGroups, Validate g = none := by
                intro g hg
                have := hcon g hg
                cases hvg : Validate g with
                | none => rfl
                | some e => simp [hvg] at this
              rw [(validateGroups_eq_none Validate settings.NodeGroups).2 hall] at hval
              cases hval
            obtain ⟨g, hg, hgs⟩ := hex
            refine Or.inl ⟨Or.inr (Or.inr ⟨v, settings, g, rfl, hu, hg, hgs⟩), ?_, ?_⟩ <;>
              simp [ConfigFromConfigMap, mapIndex, hd, hv, hu, Config.validate, hval]
          | none =>
            have hall := (validateGroups_eq_none Validate settings.NodeGroups).1 hval
            refine Or.inr ⟨?_, v, settings, rfl, hv, hu, hall, ?_⟩
            · rintro (h | h | h)
              · rcases h with h | h
                · cases h
                · exact absurd (Option.some.inj h) hv
              · obtain ⟨v2, err, h1, h2⟩ := h
                cases Option.some.inj h1
                rw [hu] at h2
                cases h2
              · obtain ⟨v2, s2, g, h1, h2, hg, hgs⟩ := h
                cases Option.some.inj h1
                rw [hu] at h2
                cases h2
                rw [hall g hg] at hgs
                cases hgs
            · simp [ConfigFromConfigMap, mapIndex, hd, hv, hu, Config.validate, hval]
  refine ⟨⟨?_, ?_⟩, hdich⟩
  · rintro ⟨hsome, -⟩
    rcases hdich with ⟨hc, -, -⟩ | ⟨-, _, _, -, -, -, -, heq⟩
    · exact hc
    · rw [heq] at hsome
      cases hsome
  · intro hc
    rcases hdich with ⟨-, h1, h2⟩ | ⟨hn, -⟩
    · exact ⟨h1, h2⟩
    · exact absurd hc hn

/-- C6: for two configmaps from which `ConfigFromConfigMap` succeeds, the configs
mismatch exactly when the `ResourceVersion` strings differ (whatever the node groups);
`VersionMismatchesAgainst` is symmetric and no config mismatches against itself. -/
theorem VersionMismatchesAgainst_iff (Unmarshal : String → Except E (Settings Spec))
    (Validate : Spec → Option V) (m₁ m₂ : ConfigMap) (c₁ c₂ : Config Spec)
    (h₁ : (ConfigFromConfigMap Unmarshal Validate m₁).1 = some c₁)
    (h₂ : (ConfigFromConfigMap Unmarshal Validate m₂).1 = some c₂) :
    (c₁.VersionMismatchesAgainst c₂ = true ↔ m₁.ResourceVersion ≠ m₂.ResourceVersion) ∧
    (∀ c d : Config Spec, c.VersionMismatchesAgainst d = d.VersionMismatchesAgainst c) ∧
    (∀ c : Config Spec, c.VersionMismatchesAgainst c = false) := by
  have key : ∀ (m : ConfigMap) (c : Config Spec),
      (ConfigFromConfigMap Unmarshal Validate m).1 = some c →
      c.resourceVersion = m.ResourceVersion := by
    intro m c h
    unfold ConfigFromConfigMap at h
    simp only at h
    split at h
    · cases h
    · split at h
      · cases h
      · split at h
        · cases h
        · cases Option.some.inj h
          rfl
  refine ⟨?_, ?_, ?_⟩
  · simp [Config.VersionMismatchesAgainst, key m₁ c₁ h₁, key m₂ c₂ h₂]
  · intro c d
    simp only [Config.VersionMismatchesAgainst, bne, Bool.not_eq_not]
    by_cases h : c.resourceVersion = d.resourceVersion
    · simp [h]
    · have h2 : ¬ d.resourceVersion = c.resourceVersion := fun e => h e.symm
      simp [h, h2]
  · intro c
    simp [Config.VersionMismatchesAgainst]

end Dynamic

namespace PromToSd

variable {Uri Err Gce Svc Metrics TS : Type}

theorem parseSources_ok_iff (P : Uri → Except Err SourceConfig) (src : List Uri)
    (acc r : List SourceConfig) :
    parseSources P src acc = Except.ok r ↔
      ∃ parsed, List.Forall₂ (fun c sc => P c = Except.ok sc) src parsed ∧
        r = acc ++ parsed := by
  induction src generalizing acc with
  | nil =>
    constructor
    · intro h
      simp only [parseSources] at h
      cases h
      exact ⟨[], List.Forall₂.nil, by simp⟩
    · rintro ⟨parsed, hp, rfl⟩
      cases hp
      simp [parseSources]
  | cons c rest ih =>
    cases hc : P c with
    | error err =>
      constructor
      · intro h
        simp [parseSources, hc] at h
      · rintro ⟨parsed, hp, -⟩
        cases hp with
        | cons h1 _ => rw [hc] at h1; cases h1
    | ok sc =>
      simp only [parseSources, hc]
      rw [ih]
      constructor
      · rintro ⟨parsed, hp, rfl⟩
        exact ⟨sc :: parsed, List.Forall₂.cons hc hp, by simp⟩
      · rintro ⟨parsed, hp, rfl⟩
        cases hp with
        | cons h1 h2 =>
          rw [hc] at h1
          cases h1
          exact ⟨_, h2, by simp⟩

theorem run_append (w : Worker Gce Svc) (pre post : List (Tick Err Metrics TS Gce)) :
    w.run (pre ++ post) = w.run pre ++ w.run post := by
  induction pre with
  | nil => rfl
  | cons t rest ih => simp [Worker.run, ih]

theorem run_length (w : Worker Gce Svc) (ticks : List (Tick Err Metrics TS Gce)) :
    (w.run ticks).length = ticks.length := by
  induction ticks with
  | nil => rfl
  | cons t rest ih => simp [Worker.run, ih]

theorem tick_sends (w : Worker Gce Svc) (t : Tick Err Metrics TS Gce) :
    (w.tick t).countP Call.isSend = if w.scrapeOk t = true then 1 else 0 := by
  unfold Worker.tick Worker.scrapeOk
  cases t.GetPrometheusMetrics w.sourceConfig.Host w.sourceConfig.Port with
  | error e => simp [List.countP_cons, Call.isSend]
  | ok m => simp [List.countP_cons, Call.isSend]

theorem run_sends (w : Worker Gce Svc) (ticks : List (Tick Err Metrics TS Gce)) :
    (w.run ticks).flatten.countP Call.isSend = ticks.countP w.scrapeOk := by
  induction ticks with
  | nil => rfl
  | cons t rest ih =>
    simp only [Worker.run, List.flatten_cons, List.countP_append, ih, tick_sends,
      List.countP_cons]
    omega

/-- C1: on a tick whose scrape fails, a worker makes the scrape call and neither
translates nor sends; its loop goes on, and the ticks before and after are handled as
they are without the failed tick; over any finite sequence of ticks the number of send
calls is the number of ticks whose scrape succeeded. -/
theorem scrape_error_skips_tick (w : Worker Gce Svc) (pre post : List (Tick Err Metrics TS Gce))
    (t : Tick Err Metrics TS Gce) (err : Err)
    (h : t.GetPrometheusMetrics w.sourceConfig.Host w.sourceConfig.Port =
      Except.error err) :
    w.tick t = [Call.GetPrometheusMetrics w.sourceConfig.Host w.sourceConfig.Port] ∧
    (∀ c ∈ w.tick t, c.isTranslate = false ∧ c.isSend = false) ∧
    w.run (pre ++ t :: post) = w.run pre ++ w.tick t :: w.run post ∧
    w.run (pre ++ post) = w.run pre ++ w.run post ∧
    (w.run (pre ++ t :: post)).length = (pre ++ t :: post).length ∧
    (∀ ticks : List (Tick Err Metrics TS Gce),
      (w.run ticks).flatten.countP Call.isSend = ticks.countP w.scrapeOk) := by
  have ht : w.tick t =
      [Call.GetPrometheusMetrics w.sourceConfig.Host w.sourceConfig.Port] := by
    simp [Worker.tick, h]
  refine ⟨ht, ?_, ?_, run_append w pre post, run_length w _, run_sends w⟩
  · intro c hc
    rw [ht] at hc
    simp only [List.mem_singleton] at hc
    subst hc
    exact ⟨rfl, rfl⟩
  · rw [run_append]
    rfl

/-- C2: on a tick whose scrape succeeds, a worker makes exactly three calls, in this
order: the scrape, one translate call with the GCE config, its source's component, the
metrics the scrape returned and its source's whitelist, and one send call with the time
series that translate call returned. -/
theorem scrape_ok_translates_and_sends (w : Worker Gce Svc) (t : Tick Err Metrics TS Gce)
    (metrics : Metrics)
    (h : t.GetPrometheusMetrics w.sourceConfig.Host w.sourceConfig.Port =
      Except.ok metrics) :
    w.tick t =
      [Call.GetPrometheusMetrics w.sourceConfig.Host w.sourceConfig.Port,
       Call.TranslatePrometheusToStackdriver w.gceConf w.sourceConfig.Component metrics
         w.sourceConfig.Whitelisted,
       Call.SendToStackdriver w.stackdriverService w.gceConf
         (t.TranslatePrometheusToStackdriver w.gceConf w.sourceConfig.Component metrics
           w.sourceConfig.Whitelisted)] ∧
    (w.tick t).countP Call.isTranslate = 1 ∧
    (w.tick t).countP Call.isSend = 1 := by
  have ht : w.tick t =
      [Call.GetPrometheusMetrics w.sourceConfig.Host w.sourceConfig.Port,
       Call.TranslatePrometheusToStackdriver w.gceConf w.sourceConfig.Component metrics
         w.sourceConfig.Whitelisted,
       Call.SendToStackdriver w.stackdriverService w.gceConf
         (t.TranslatePrometheusToStackdriver w.gceConf w.sourceConfig.Component metrics
           w.sourceConfig.Whitelisted)] := by
    simp [Worker.tick, h]
  refine ⟨ht, ?_, ?_⟩
  · rw [ht]
    simp [List.countP_cons, Call.isTranslate]
  · rw [ht]
    simp [List.countP_cons, Call.isSend]

end PromToSd

namespace PromToSd

variable {Uri Err Gce Svc Metrics TS : Type}

theorem addComponent_ok_iff (x : Startup Uri Err Gce Svc) (f : Flags Uri)
    (parsed r : List SourceConfig) :
    addComponent x f parsed = Except.ok r ↔
      ((f.component = "" ∧ r = parsed) ∨
        (f.component ≠ "" ∧ ∃ sc,
          x.NewSourceConfig f.component f.host (Nat.repr f.port) f.whitelisted =
            Except.ok sc ∧ r = parsed ++ [sc])) := by
  unfold addComponent portStr
  by_cases hc : f.component = ""
  · rw [if_neg (not_not.mpr hc)]
    constructor
    · intro h
      cases h
      exact Or.inl ⟨hc, rfl⟩
    · rintro (⟨-, rfl⟩ | ⟨h, -⟩)
      · rfl
      · exact absurd hc h
  · rw [if_pos hc]
    cases hn : x.NewSourceConfig f.component f.host (Nat.repr f.port) f.whitelisted with
    | error err =>
      constructor
      · intro h
        cases h
      · rintro (⟨h, -⟩ | ⟨-, sc, h, -⟩)
        · exact absurd h hc
        · cases h
    | ok sc =>
      constructor
      · intro h
        cases h
        exact Or.inr ⟨hc, sc, rfl, rfl⟩
      · rintro (⟨h, -⟩ | ⟨-, sc2, h, rfl⟩)
        · exact absurd h hc
        · cases h
          rfl

theorem createService_ok_iff (x : Startup Uri Err Gce Svc) (f : Flags Uri)
    (service : Option Svc) :
    createService x f = Except.ok (some service) ↔
      (x.New.2 = none ∧
        ((f.apioverride = "" ∧ service = x.New.1) ∨
          (f.apioverride ≠ "" ∧ ∃ s, x.New.1 = some s ∧
            service = some (x.setBasePath s f.apioverride)))) := by
  unfold createService
  by_cases ha : f.apioverride = ""
  · simp only [if_neg (not_not.mpr ha)]
    cases he : x.New.2 with
    | none =>
      constructor
      · intro h
        cases h
        exact ⟨rfl, Or.inl ⟨ha, rfl⟩⟩
      · rintro ⟨-, (⟨-, rfl⟩ | ⟨h, -⟩)⟩
        · rfl
        · exact absurd ha h
    | some e =>
      constructor
      · intro h
        cases h
      · rintro ⟨h, -⟩
        cases h
  · simp only [if_pos ha]
    cases hs : x.New.1 with
    | none =>
      constructor
      · intro h
        cases h
      · rintro ⟨-, (⟨h, -⟩ | ⟨-, s, h, -⟩)⟩
        · exact absurd h ha
        · cases h
    | some s =>
      cases he : x.New.2 with
      | none =>
        constructor
        · intro h
          cases h
          exact ⟨rfl, Or.inr ⟨ha, s, rfl, rfl⟩⟩
        · rintro ⟨-, (⟨h, -⟩ | ⟨-, s2, h, rfl⟩)⟩
          · exact absurd h ha
          · cases h
            rfl
      | some e =>
        constructor
        · intro h
          cases h
        · rintro ⟨h, -⟩
          cases h

/-- With no `--source` value and an empty `--component`, `main` starts no worker,
whatever the other flags, `GetGceConfig` and `v3.New` give: it ends in a `glog.Fatalf`,
except when `v3.New` gave a nil service and `--api-override` is set, where it ends in
the run-time panic of the assignment to `BasePath`. -/
theorem main_no_sources_starts_no_worker (x : Startup Uri Err Gce Svc) (f : Flags Uri)
    (hsource : f.source = []) (hcomponent : f.component = "") :
    (main x f).started = [] ∧
    ((∃ e, main x f = Outcome.fatal e) ∨
      (main x f = Outcome.nilDereference ∧ x.New.1 = none ∧ f.apioverride ≠ "")) := by
  have hmain : main x f =
      match x.GetGceConfig f.metricsPrefix with
      | Except.error err => Outcome.fatal (Fatal.gceConfig err)
      | Except.ok _ =>
        match createService x f with
        | Except.error e => Outcome.fatal e
        | Except.ok none => Outcome.nilDereference
        | Except.ok (some _) => Outcome.fatal Fatal.noSources := by
    simp only [main, hsource, parseSources, addComponent, hcomponent, ne_eq,
      not_true_eq_false, if_false, List.length_nil, if_true]
  rw [hmain]
  cases x.GetGceConfig f.metricsPrefix with
  | error err => exact ⟨rfl, Or.inl ⟨_, rfl⟩⟩
  | ok gceConf =>
    cases hcs : createService x f with
    | error e => exact ⟨rfl, Or.inl ⟨_, rfl⟩⟩
    | ok r =>
      cases r with
      | some service => exact ⟨rfl, Or.inl ⟨_, rfl⟩⟩
      | none =>
        refine ⟨rfl, Or.inr ⟨rfl, ?_⟩⟩
        unfold createService at hcs
        by_cases ha : f.apioverride = ""
        · cases he : x.New.2 <;> simp [ha, he] at hcs
        · cases hs : x.New.1 with
          | none => exact ⟨rfl, ha⟩
          | some s => cases he : x.New.2 <;> simp [ha, hs, he] at hcs

/-- When `main` ends start-up with running workers, and which workers these are. -/
theorem main_running_workers (x : Startup Uri Err Gce Svc) (f : Flags Uri)
    (workers : List (Worker Gce Svc)) :
    (main x f = Outcome.running workers ↔
      ∃ parsed sourceConfigs gceConf service,
        List.Forall₂ (fun c sc => x.ParseSourceConfig c = Except.ok sc) f.source parsed ∧
        ((f.component = "" ∧ sourceConfigs = parsed) ∨
          (f.component ≠ "" ∧ ∃ sc,
            x.NewSourceConfig f.component f.host (Nat.repr f.port) f.whitelisted =
              Except.ok sc ∧ sourceConfigs = parsed ++ [sc])) ∧
        x.GetGceConfig f.metricsPrefix = Except.ok gceConf ∧
        (x.New.2 = none ∧
          ((f.apioverride = "" ∧ service = x.New.1) ∨
            (f.apioverride ≠ "" ∧ ∃ s, x.New.1 = some s ∧
              service = some (x.setBasePath s f.apioverride)))) ∧
        sourceConfigs ≠ [] ∧
        workers.length = sourceConfigs.length ∧
        ∀ (i : Nat) (sc : SourceConfig), sourceConfigs[i]? = some sc →
          workers[i]? = some
            ({ gceConf := gceConf, stackdriverService := service, sourceConfig := sc } :
              Worker Gce Svc)) := by
  have hmap : ∀ (cfgs : List SourceConfig) (g : Gce) (s : Option Svc),
      (workers = cfgs.map (fun sc =>
        ({ gceConf := g, stackdriverService := s, sourceConfig := sc } : Worker Gce Svc)))
      ↔ (workers.length = cfgs.length ∧ ∀ (i : Nat) (sc : SourceConfig), cfgs[i]? = some sc →
          workers[i]? = some
            ({ gceConf := g, stackdriverService := s, sourceConfig := sc } :
              Worker Gce Svc)) := by
    intro cfgs g s
    constructor
    · rintro rfl
      refine ⟨by simp, ?_⟩
      intro i sc h
      simp [List.getElem?_map, h]
    · rintro ⟨hlen, hget⟩
      apply List.ext_getElem?
      intro i
      rw [List.getElem?_map]
      cases hc : cfgs[i]? with
      | none =>
        have hi : cfgs.length ≤ i := List.getElem?_eq_none_iff.mp hc
        simp only [Option.map_none']
        exact List.getElem?_eq_none_iff.mpr (hlen ▸ hi)
      | some sc => simpa using hget i sc hc
  constructor
  · intro h
    unfold main at h
    cases hp : parseSources x.ParseSourceConfig f.source [] with
    | error e => rw [hp] at h; cases h
    | ok parsed =>
      rw [hp] at h
      simp only at h
      cases hac : addComponent x f parsed with
      | error e => rw [hac] at h; cases h
      | ok sourceConfigs =>
        rw [hac] at h
        simp only at h
        cases hg : x.GetGceConfig f.metricsPrefix with
        | error e => rw [hg] at h; cases h
        | ok gceConf =>
          rw [hg] at h
          simp only at h
          cases hcs : createService x f with
          | error e => rw [hcs] at h; cases h
          | ok r =>
            rw [hcs] at h
            cases r with
            | none => cases h
            | some service =>
              simp only at h
              by_cases hl : sourceConfigs.length = 0
              · rw [if_pos hl] at h
                cases h
              · rw [if_neg hl] at h
                obtain ⟨parsed', hfor, hpe⟩ := (parseSources_ok_iff _ _ _ _).1 hp
                simp only [List.nil_append] at hpe
                subst hpe
                have hw : workers = sourceConfigs.map (fun sc =>
                    ({ gceConf := gceConf, stackdriverService := service,
                       sourceConfig := sc } : Worker Gce Svc)) := by
                  cases h
                  rfl
                have hw2 := (hmap sourceConfigs gceConf service).1 hw
                refine ⟨parsed, sourceConfigs, gceConf, service, hfor,
                  (addComponent_ok_iff x f parsed sourceConfigs).1 hac, rfl,
                  (createService_ok_iff x f service).1 hcs, ?_, hw2.1, hw2.2⟩
                intro hnil
                exact hl (by rw [hnil]; rfl)
  · rintro ⟨parsed, sourceConfigs, gceConf, service, hfor, hcomp, hg, hsvc, hne, hlen,
      hget⟩
    have hp : parseSources x.ParseSourceConfig f.source [] = Except.ok parsed :=
      (parseSources_ok_iff _ _ _ _).2 ⟨parsed, hfor, by simp⟩
    have hac := (addComponent_ok_iff x f parsed sourceConfigs).2 hcomp
    have hcs := (createService_ok_iff x f service).2 hsvc
    have hl : ¬ sourceConfigs.length = 0 := by
      intro h0
      exact hne (List.length_eq_zero.mp h0)
    have hw := (hmap sourceConfigs gceConf service).2 ⟨hlen, hget⟩
    unfold main
    rw [hp]
    simp only
    rw [hac]
    simp only
    rw [hg]
    simp only
    rw [hcs]
    simp only
    rw [if_neg hl, hw]

/-- C4: `main` ends start-up with running workers exactly when every `--source` value
parses, the `--component` configuration (when `--component` is non-empty) is built, the
GCE config and the client are obtained and there is at least one configuration; the
workers then are, in order and one for one, the parsed `--source` configurations
followed, only when `--component` is non-empty, by the one built from `--component`,
`--target-host`, the decimal `--target-port` and `--whitelisted-metrics`; on every tick
the i-th worker scrapes the host and port of the i-th configuration and, when the
scrape succeeds, translates with the i-th configuration's component and whitelist and
sends the result; no call of a worker carries the host, port, component or whitelist of
another configuration. -/
theorem main_running_iff (x : Startup Uri Err Gce Svc) (f : Flags Uri)
    (workers : List (Worker Gce Svc)) :
    (main x f = Outcome.running workers ↔
      ∃ parsed sourceConfigs gceConf service,
        List.Forall₂ (fun c sc => x.ParseSourceConfig c = Except.ok sc) f.source parsed ∧
        ((f.component = "" ∧ sourceConfigs = parsed) ∨
          (f.component ≠ "" ∧ ∃ sc,
            x.NewSourceConfig f.component f.host (Nat.repr f.port) f.whitelisted =
              Except.ok sc ∧ sourceConfigs = parsed ++ [sc])) ∧
        x.GetGceConfig f.metricsPrefix = Except.ok gceConf ∧
        (x.New.2 = none ∧
          ((f.apioverride = "" ∧ service = x.New.1) ∨
            (f.apioverride ≠ "" ∧ ∃ s, x.New.1 = some s ∧
              service = some (x.setBasePath s f.apioverride)))) ∧
        sourceConfigs ≠ [] ∧
        workers.length = sourceConfigs.length ∧
        ∀ (i : Nat) (sc : SourceConfig), sourceConfigs[i]? = some sc →
          workers[i]? = some
            ({ gceConf := gceConf, stackdriverService := service, sourceConfig := sc } :
              Worker Gce Svc)) ∧
    (main x f = Outcome.running workers →
      ∃ parsed sourceConfigs gceConf service,
        List.Forall₂ (fun c sc => x.ParseSourceConfig c = Except.ok sc) f.source parsed ∧
        ((f.component = "" ∧ sourceConfigs = parsed) ∨
          (f.component ≠ "" ∧ ∃ sc,
            x.NewSourceConfig f.component f.host (Nat.repr f.port) f.whitelisted =
              Except.ok sc ∧ sourceConfigs = parsed ++ [sc])) ∧
        x.GetGceConfig f.metricsPrefix = Except.ok gceConf ∧
        (x.New.2 = none ∧
          ((f.apioverride = "" ∧ service = x.New.1) ∨
            (f.apioverride ≠ "" ∧ ∃ s, x.New.1 = some s ∧
              service = some (x.setBasePath s f.apioverride)))) ∧
        workers.length = sourceConfigs.length ∧
        ∀ (i : Nat) (sc : SourceConfig), sourceConfigs[i]? = some sc →
          ∃ w, workers[i]? = some w ∧ w.sourceConfig = sc ∧
            ∀ t : Tick Err Metrics TS Gce,
              (w.tick t).head? = some (Call.GetPrometheusMetrics sc.Host sc.Port) ∧
              (∀ err, t.GetPrometheusMetrics sc.Host sc.Port = Except.error err →
                w.tick t = [Call.GetPrometheusMetrics sc.Host sc.Port]) ∧
              (∀ metrics, t.GetPrometheusMetrics sc.Host sc.Port = Except.ok metrics →
                w.tick t =
                  [Call.GetPrometheusMetrics sc.Host sc.Port,
                   Call.TranslatePrometheusToStackdriver gceConf sc.Component metrics
                     sc.Whitelisted,
                   Call.SendToStackdriver service gceConf
                     (t.TranslatePrometheusToStackdriver gceConf sc.Component metrics
                       sc.Whitelisted)])) ∧
    (∀ (w : Worker Gce Svc) (t : Tick Err Metrics TS Gce),
      ∀ c ∈ w.tick t,
        (∀ host port, c = Call.GetPrometheusMetrics host port →
          host = w.sourceConfig.Host ∧ port = w.sourceConfig.Port) ∧
        (∀ gceConf component (metrics : Metrics) whitelisted,
          c = Call.TranslatePrometheusToStackdriver gceConf component metrics whitelisted →
          component = w.sourceConfig.Component ∧
            whitelisted = w.sourceConfig.Whitelisted)) := by
  refine ⟨main_running_workers x f workers, ?_, ?_⟩
  · intro h
    obtain ⟨parsed, sourceConfigs, gceConf, service, hfor, hcomp, hg, hsvc, -, hlen, hget⟩ :=
      (main_running_workers x f workers).1 h
    refine ⟨parsed, sourceConfigs, gceConf, service, hfor, hcomp, hg, hsvc, hlen, ?_⟩
    intro i sc hi
    refine ⟨_, hget i sc hi, rfl, ?_⟩
    intro t
    refine ⟨?_, ?_, ?_⟩
    · unfold Worker.tick
      cases t.GetPrometheusMetrics sc.Host sc.Port <;> rfl
    · intro err he
      simp [Worker.tick, he]
    · intro metrics hm
      simp [Worker.tick, hm]
  · intro w t c hc
    unfold Worker.tick at hc
    cases hs : t.GetPrometheusMetrics w.sourceConfig.Host w.sourceConfig.Port with
    | error e =>
      rw [hs] at hc
      simp only [List.mem_singleton] at hc
      subst hc
      refine ⟨?_, ?_⟩
      · intro host port h
        cases h
        exact ⟨rfl, rfl⟩
      · intro g comp m wl h
        cases h
    | ok m =>
      rw [hs] at hc
      simp only [List.mem_cons, List.mem_singleton, List.not_mem_nil, or_false] at hc
      rcases hc with rfl | rfl | rfl
      · refine ⟨?_, ?_⟩
        · intro host port h
          cases h
          exact ⟨rfl, rfl⟩
        · intro g comp m2 wl h
          cases h
      · refine ⟨?_, ?_⟩
        · intro host port h
          cases h
        · intro g comp m2 wl h
          cases h
          exact ⟨rfl, rfl⟩
      · refine ⟨?_, ?_⟩
        · intro host port h
          cases h
        · intro g comp m2 wl h
          cases h

end PromToSd

namespace Mungers

variable {Err Files : Type}

theorem isDibsComment_iff (ToLower : String → String) (fields : List String) :
    isDibsComment ToLower fields = true ↔
      ∃ field, fields = [field] ∧ ToLower field = "/assign" := by
  match fields with
  | [] => simp [isDibsComment]
  | [field] => simp [isDibsComment, assign_command]
  | _ :: _ :: _ => simp [isDibsComment]

theorem isReassignComment_iff (ToLower : String → String) (fields : List String) :
    isReassignComment ToLower fields = true ↔
      ∃ field, fields = [field] ∧ ToLower field = "/reassign" := by
  match fields with
  | [] => simp [isReassignComment]
  | [field] => simp [isReassignComment, reassign_command]
  | _ :: _ :: _ => simp [isReassignComment]

theorem isAssignee_spec (assignees : List User) (u : User) (login : String)
    (hl : u.Login = some login) :
    ∃ b, isAssignee assignees (some u) = some b ∧
      (b = true ↔ ∃ assignee ∈ assignees, assignee.Login = some login ∧
        ptrEq u.ID assignee.ID = true) := by
  induction assignees with
  | nil => exact ⟨false, rfl, by simp⟩
  | cons a rest ih =>
    obtain ⟨b, hb, hiff⟩ := ih
    cases ha : a.Login with
    | none =>
      refine ⟨b, by simp [isAssignee, ha, hb], ?_⟩
      rw [hiff]
      simp [ha]
    | some al =>
      by_cases hc : al = login ∧ ptrEq u.ID a.ID = true
      · refine ⟨true, by simp [isAssignee, ha, hl, hc], ?_⟩
        simp only [true_iff]
        exact ⟨a, List.mem_cons_self _ _, by rw [ha, hc.1], hc.2⟩
      · refine ⟨b, by simp [isAssignee, ha, hl, hc, hb], ?_⟩
        rw [hiff]
        constructor
        · rintro ⟨x, hx, h1, h2⟩
          exact ⟨x, List.mem_cons_of_mem _ hx, h1, h2⟩
        · rintro ⟨x, hx, h1, h2⟩
          rcases List.mem_cons.mp hx with rfl | hx
          · exfalso
            apply hc
            rw [ha] at h1
            exact ⟨Option.some.inj h1, h2⟩
          · exact ⟨x, hx, h1, h2⟩

end Mungers

namespace Mungers

variable {Err Files : Type}

theorem commentStep_unchecked (env : Env Err Files) (obj : MungeObject)
    (po : String → Option Int)
    (hvalid : ∀ u, env.IsValidUser u = true →
      ∃ usr login, u = some usr ∧ usr.Login = some login)
    (acc : Result Err) (c : IssueComment) :
    ∃ acc', commentStep env obj false po acc c = some acc' ∧ acc'.err = acc.err ∧
      acc'.written = acc.written ∧
      (∀ l, l ∈ acc'.toAssign ↔ l ∈ acc.toAssign ∨ commentAssigns env c l) ∧
      (∀ l, l ∈ acc'.toUnassign ↔ l ∈ acc.toUnassign ∨ commentUnassigns env obj c l) := by
  by_cases hv : env.IsValidUser c.User = true
  · obtain ⟨usr, login, hu, hlog⟩ := hvalid _ hv
    have hv' : ¬ env.IsValidUser (some usr) = false := by
      rw [← hu, hv]; simp
    have hv2 : env.IsValidUser (some usr) = true := by rw [← hu]; exact hv
    obtain ⟨b, hb, hbiff⟩ := isAssignee_spec obj.Issue.Assignees usr login hlog
    have hA : ∀ l, commentAssigns env c l ↔
        (isDibsComment env.ToLower (env.getFields c.Body) = true ∧ l = login) := by
      intro l
      unfold commentAssigns
      rw [isDibsComment_iff, hu]
      constructor
      · rintro ⟨usr', field, h1, -, h3, h4, h5⟩
        cases h1
        rw [hlog] at h3
        exact ⟨⟨field, h4, h5⟩, (Option.some.inj h3).symm⟩
      · rintro ⟨⟨field, h4, h5⟩, rfl⟩
        exact ⟨usr, field, rfl, hv2, hlog, h4, h5⟩
    have hU : ∀ l, commentUnassigns env obj c l ↔
        (isReassignComment env.ToLower (env.getFields c.Body) = true ∧ b = true ∧
          l = login) := by
      intro l
      unfold commentUnassigns
      rw [isReassignComment_iff, hu, hbiff]
      constructor
      · rintro ⟨usr', field, h1, -, h3, h4, h5, h6⟩
        cases h1
        rw [hlog] at h3
        cases Option.some.inj h3
        exact ⟨⟨field, h4, h5⟩, h6, rfl⟩
      · rintro ⟨⟨field, h4, h5⟩, h6, rfl⟩
        exact ⟨usr, field, rfl, hv2, hlog, h4, h5, h6⟩
    have hstep : commentStep env obj false po acc c = some
        { toAssign :=
            if isDibsComment env.ToLower (env.getFields c.Body) = true then
              insert login acc.toAssign else acc.toAssign,
          toUnassign :=
            if isReassignComment env.ToLower (env.getFields c.Body) = true ∧ b = true then
              insert login acc.toUnassign else acc.toUnassign,
          err := acc.err, written := acc.written } := by
      unfold commentStep
      rw [hu]
      cases hd : isDibsComment env.ToLower (env.getFields c.Body) <;>
        cases hr : isReassignComment env.ToLower (env.getFields c.Body) <;>
        cases b <;> simp [hv2, derefLogin, hlog, hb, hd, hr]
    refine ⟨_, hstep, rfl, rfl, ?_, ?_⟩
    · intro l
      rw [hA l]
      by_cases hd : isDibsComment env.ToLower (env.getFields c.Body) = true
      · simp [hd, Finset.mem_insert, or_comm]
      · simp [hd]
    · intro l
      rw [hU l]
      by_cases hr : isReassignComment env.ToLower (env.getFields c.Body) = true ∧ b = true
      · simp [hr, Finset.mem_insert, or_comm]
      · rw [if_neg hr]
        constructor
        · exact Or.inl
        · rintro (h | ⟨h1, h2, -⟩)
          · exact h
          · exact absurd ⟨h1, h2⟩ hr
  · have hv' : env.IsValidUser c.User = false := by
      cases h : env.IsValidUser c.User
      · rfl
      · exact absurd h hv
    refine ⟨acc, by simp [commentStep, hv'], rfl, rfl, ?_, ?_⟩
    · intro l
      constructor
      · exact Or.inl
      · rintro (h | ⟨_, _, _, h, _⟩)
        · exact h
        · exact absurd h hv
    · intro l
      constructor
      · exact Or.inl
      · rintro (h | ⟨_, _, _, h, _⟩)
        · exact h
        · exact absurd h hv

end Mungers

namespace Mungers

variable {Err Files : Type}

theorem commentLoop_unchecked (env : Env Err Files) (obj : MungeObject)
    (po : String → Option Int)
    (hvalid : ∀ u, env.IsValidUser u = true →
      ∃ usr login, u = some usr ∧ usr.Login = some login)
    (cs : List IssueComment) (acc : Result Err) :
    ∃ r, commentLoop env obj false po acc cs = some r ∧ r.err = acc.err ∧
      r.written = acc.written ∧
      (∀ l, l ∈ r.toAssign ↔ l ∈ acc.toAssign ∨ ∃ c ∈ cs, commentAssigns env c l) ∧
      (∀ l, l ∈ r.toUnassign ↔
        l ∈ acc.toUnassign ∨ ∃ c ∈ cs, commentUnassigns env obj c l) := by
  induction cs generalizing acc with
  | nil => exact ⟨acc, rfl, rfl, rfl, by simp, by simp⟩
  | cons c rest ih =>
    obtain ⟨acc₁, h1, he1, hw1, ha1, hu1⟩ := commentStep_unchecked env obj po hvalid acc c
    obtain ⟨r, h2, he2, hw2, ha2, hu2⟩ := ih acc₁
    refine ⟨r, by simp [commentLoop, h1, h2], he2.trans he1, hw2.trans hw1, ?_, ?_⟩
    · intro l
      rw [ha2 l, ha1 l]
      simp only [List.mem_cons, exists_eq_or_imp, or_assoc]
    · intro l
      rw [hu2 l, hu1 l]
      simp only [List.mem_cons, exists_eq_or_imp, or_assoc]

theorem assignOrRemove_sets (env : Env Err Files) (obj : MungeObject)
    (comments : List IssueComment)
    (hvalid : ∀ u, env.IsValidUser u = true →
      ∃ usr login, u = some usr ∧ usr.Login = some login) :
    ∃ r, assignOrRemove env obj comments false = some r ∧ r.err = none ∧
      r.written = [] ∧
      (∀ login, login ∈ r.toAssign ↔ ∃ c ∈ comments, commentAssigns env c login) ∧
      (∀ login, login ∈ r.toUnassign ↔
        ∃ c ∈ comments, commentUnassigns env obj c login) := by
  obtain ⟨r, h, he, hw, ha, hu⟩ := commentLoop_unchecked env obj (fun _ => none) hvalid
    comments.reverse { toAssign := ∅, toUnassign := ∅, err := none, written := [] }
  refine ⟨r, by simp [assignOrRemove, h], he, hw, ?_, ?_⟩
  · intro l
    rw [ha l]
    simp
  · intro l
    rw [hu l]
    simp

/-- What `assignOrRemove` computes with `checkValid = false`, when `IsValidUser` accepts
only users that have a login: it returns, with no error; `toAssign` is exactly the set
of logins of valid users who authored a comment whose fields are the single field
`/assign` up to case; `toUnassign` is exactly the set of logins of valid users who
authored such a `/reassign` comment and for whom `isAssignee` holds, that is, some
assignee has their login and an `ID` pointer equal to theirs; a comment by an invalid
user, or whose fields are anything else, changes neither set. -/
theorem assignOrRemove_unchecked (env : Env Err Files) (obj : MungeObject)
    (comments : List IssueComment)
    (hvalid : ∀ u, env.IsValidUser u = true →
      ∃ usr login, u = some usr ∧ usr.Login = some login) :
    ∃ r, assignOrRemove env obj comments false = some r ∧ r.err = none ∧
      (∀ login, login ∈ r.toAssign ↔ ∃ c ∈ comments, commentAssigns env c login) ∧
      (∀ login, login ∈ r.toUnassign ↔
        ∃ c ∈ comments, commentUnassigns env obj c login) ∧
      (∀ pre post c, comments = pre ++ c :: post →
        (env.IsValidUser c.User = false ∨
          ∀ field, env.getFields c.Body = [field] →
            env.ToLower field ≠ "/assign" ∧ env.ToLower field ≠ "/reassign") →
        ∃ r', assignOrRemove env obj (pre ++ post) false = some r' ∧
          r'.toAssign = r.toAssign ∧ r'.toUnassign = r.toUnassign) := by
  obtain ⟨r, h, he, -, ha, hu⟩ := assignOrRemove_sets env obj comments hvalid
  refine ⟨r, h, he, ha, hu, ?_⟩
  intro pre post c hc hirr
  obtain ⟨r', h', -, -, ha', hu'⟩ := assignOrRemove_sets env obj (pre ++ post) hvalid
  have hnoA : ∀ l, ¬ commentAssigns env c l := by
    rintro l ⟨usr, field, -, hv, -, hf, hlow⟩
    rcases hirr with hinv | hother
    · rw [hinv] at hv
      cases hv
    · exact (hother field hf).1 hlow
  have hnoU : ∀ l, ¬ commentUnassigns env obj c l := by
    rintro l ⟨usr, field, -, hv, -, hf, hlow, -⟩
    rcases hirr with hinv | hother
    · rw [hinv] at hv
      cases hv
    · exact (hother field hf).2 hlow
  refine ⟨r', h', ?_, ?_⟩
  · ext l
    rw [ha' l, ha l, hc]
    constructor
    · rintro ⟨x, hx, hxl⟩
      refine ⟨x, ?_, hxl⟩
      rcases List.mem_append.mp hx with hx | hx
      · exact List.mem_append_left _ hx
      · exact List.mem_append_right _ (List.mem_cons_of_mem _ hx)
    · rintro ⟨x, hx, hxl⟩
      refine ⟨x, ?_, hxl⟩
      rcases List.mem_append.mp hx with hx | hx
      · exact List.mem_append_left _ hx
      · rcases List.mem_cons.mp hx with rfl | hx
        · exact absurd hxl (hnoA l)
        · exact List.mem_append_right _ hx
  · ext l
    rw [hu' l, hu l, hc]
    constructor
    · rintro ⟨x, hx, hxl⟩
      refine ⟨x, ?_, hxl⟩
      rcases List.mem_append.mp hx with hx | hx
      · exact List.mem_append_left _ hx
      · exact List.mem_append_right _ (List.mem_cons_of_mem _ hx)
    · rintro ⟨x, hx, hxl⟩
      refine ⟨x, ?_, hxl⟩
      rcases List.mem_append.mp hx with hx | hx
      · exact List.mem_append_left _ hx
      · rcases List.mem_cons.mp hx with rfl | hx
        · exact absurd hxl (hnoU l)
        · exact List.mem_append_right _ hx

end Mungers

/-! ## The theorems on concrete inputs -/

namespace Dynamic

theorem VersionMismatchesAgainst_iff_witness :
    (ConfigFromConfigMap exampleUnmarshal exampleValidate (exampleConfigMap "1")).1 =
        some (exampleConfig "1") ∧
    (ConfigFromConfigMap exampleUnmarshal exampleValidate (exampleConfigMap "2")).1 =
        some (exampleConfig "2") ∧
    (((exampleConfig "1").VersionMismatchesAgainst (exampleConfig "2") = true ↔
        (exampleConfigMap "1").ResourceVersion ≠ (exampleConfigMap "2").ResourceVersion) ∧
      (∀ c d : Config Nat, c.VersionMismatchesAgainst d = d.VersionMismatchesAgainst c) ∧
      (∀ c : Config Nat, c.VersionMismatchesAgainst c = false)) :=
  ⟨rfl, rfl,
    VersionMismatchesAgainst_iff exampleUnmarshal exampleValidate (exampleConfigMap "1")
      (exampleConfigMap "2") (exampleConfig "1") (exampleConfig "2") rfl rfl⟩

theorem ConfigFromConfigMap_examples :
    ConfigFromConfigMap exampleUnmarshal exampleValidate (exampleConfigMap "1") =
        (some (exampleConfig "1"), none) ∧
    ConfigFromConfigMap exampleUnmarshal exampleValidate
        { Data := fun _ => none, ResourceVersion := "1" } =
        (none, some (ConfigError.missingSettings "")) ∧
    ConfigFromConfigMap exampleUnmarshal exampleValidate
        { Data := fun _ => some "nodeGroups", ResourceVersion := "1" } =
        (none, some (ConfigError.parseFailed "invalid character")) ∧
    ConfigFromConfigMap exampleUnmarshal (fun _ => some "too small")
        (exampleConfigMap "1") =
        (none, some (ConfigError.invalidConfig
          (ValidateError.invalidNodeGroup "too small"))) :=
  ⟨rfl, rfl, rfl, rfl⟩

end Dynamic

namespace PromToSd

theorem scrape_error_skips_tick_witness :
    failingTick.GetPrometheusMetrics exampleWorker.sourceConfig.Host
        exampleWorker.sourceConfig.Port = Except.error "connection refused" ∧
    exampleWorker.tick failingTick = [Call.GetPrometheusMetrics "localhost" 10255] ∧
    exampleWorker.run ([okTick] ++ failingTick :: [okTick]) =
      exampleWorker.run [okTick] ++
        exampleWorker.tick failingTick :: exampleWorker.run [okTick] ∧
    exampleWorker.run ([okTick] ++ [okTick]) =
      exampleWorker.run [okTick] ++ exampleWorker.run [okTick] :=
  ⟨rfl,
    (scrape_error_skips_tick exampleWorker [okTick] [okTick] failingTick
      "connection refused" rfl).1,
    (scrape_error_skips_tick exampleWorker [okTick] [okTick] failingTick
      "connection refused" rfl).2.2.1,
    (scrape_error_skips_tick exampleWorker [okTick] [okTick] failingTick
      "connection refused" rfl).2.2.2.1⟩

theorem scrape_ok_translates_and_sends_witness :
    okTick.GetPrometheusMetrics exampleWorker.sourceConfig.Host
        exampleWorker.sourceConfig.Port = Except.ok 7 ∧
    exampleWorker.tick okTick =
      [Call.GetPrometheusMetrics "localhost" 10255,
       Call.TranslatePrometheusToStackdriver 1 "kubelet" 7 ["a", "b"],
       Call.SendToStackdriver (some 2) 1 8] :=
  ⟨rfl, (scrape_ok_translates_and_sends exampleWorker okTick 7 rfl).1⟩

/-- C3: no `--source`, an empty `--component`, `--api-override` set, and `v3.New`
returning a nil service with an error: `main` starts no worker, but it does not end in
a `glog.Fatalf`; the assignment to `BasePath` (line 86) goes through the nil service
before `err` is tested (line 88) and panics.  Without `--api-override` the same input
reaches the `Fatalf` of line 89. -/
theorem main_panics_before_client_error_check :
    (exampleFlags "http://x").source = [] ∧ (exampleFlags "http://x").component = "" ∧
    exampleStartup.New = (none, some "client is nil") ∧
    main exampleStartup (exampleFlags "http://x") = Outcome.nilDereference ∧
    (¬ ∃ e, main exampleStartup (exampleFlags "http://x") = Outcome.fatal e) ∧
    (main exampleStartup (exampleFlags "http://x")).started = [] ∧
    main exampleStartup (exampleFlags "") =
      Outcome.fatal (Fatal.stackdriverClient "client is nil") :=
  ⟨rfl, rfl, rfl, rfl, fun ⟨_, h⟩ => Outcome.noConfusion h, rfl, rfl⟩

theorem main_examples :
    main exampleStartup (exampleFlags "http://x") = Outcome.nilDereference ∧
    main exampleStartup (exampleFlags "") =
      Outcome.fatal (Fatal.stackdriverClient "client is nil") ∧
    main workingStartup (exampleFlags "http://x") = Outcome.fatal Fatal.noSources ∧
    main exampleStartup workingFlags = Outcome.fatal (Fatal.sourceFlag 10255 "bad source") ∧
    main workingStartup workingFlags = Outcome.running
      [{ gceConf := 1, stackdriverService := some 102,
         sourceConfig := { Component := "kubelet", Host := "localhost", Port := 10255,
                           Whitelisted := [] } },
       { gceConf := 1, stackdriverService := some 102,
         sourceConfig := { Component := "kubelet", Host := "localhost", Port := 10250,
                           Whitelisted := [] } },
       { gceConf := 1, stackdriverService := some 102,
         sourceConfig := { Component := "etcd", Host := "localhost:2379", Port := 0,
                           Whitelisted := ["a,b"] } }] :=
  ⟨rfl, rfl, rfl, rfl, rfl⟩

end PromToSd

namespace Mungers

theorem exampleIsValidUser_has_login (u : Option User)
    (h : exampleEnv.IsValidUser u = true) :
    ∃ usr login, u = some usr ∧ usr.Login = some login := by
  match u with
  | none => cases h
  | some usr =>
    cases hl : usr.Login with
    | none =>
      have : exampleEnv.IsValidUser (some usr) = false := by
        simp [exampleEnv, exampleIsValidUser, hl]
      rw [this] at h
      cases h
    | some login => exact ⟨usr, login, rfl, hl⟩

theorem assignOrRemove_examples :
    assignOrRemove exampleEnv exampleObj exampleComments false =
      some { toAssign := {"alice"}, toUnassign := ∅, err := none, written := [] } ∧
    assignOrRemove exampleEnv
      { Issue := { Assignees := [{ Login := some "dave", ID := none }] } }
      exampleComments false =
      some { toAssign := {"alice"}, toUnassign := {"dave"}, err := none, written := [] } ∧
    assignOrRemove exampleEnv exampleObj exampleComments true =
      some { toAssign := ∅, toUnassign := ∅, err := none, written := ["alice"] } ∧
    assignOrRemove
      { exampleEnv with IsValidUser := fun _ => true } exampleObj exampleComments false =
      none :=
  ⟨rfl, rfl, rfl, rfl⟩

/-- C7: `bob` (GitHub id 7) is an assignee of the issue and, as a valid user, writes a
comment whose only field is `/reassign`; the `User` of the comment and the `User` in
`Assignees` were decoded separately, so their `ID` pointers differ although both point
to 7.  `isAssignee` compares the pointers, finds no assignee, and `toUnassign` comes
back empty instead of holding `bob`. -/
theorem assignOrRemove_misses_reassign_of_assignee :
    exampleEnv.IsValidUser bobReassigns.User = true ∧
    exampleEnv.getFields bobReassigns.Body = ["/reassign"] ∧
    (∃ assignee ∈ exampleObj.Issue.Assignees, ∃ commenter,
      bobReassigns.User = some commenter ∧
      assignee.Login = some "bob" ∧ commenter.Login = some "bob" ∧
      assignee.ID.map IntPtr.val = some 7 ∧ commenter.ID.map IntPtr.val = some 7) ∧
    isAssignee exampleObj.Issue.Assignees bobReassigns.User = some false ∧
    assignOrRemove exampleEnv exampleObj [bobReassigns] false =
      some { toAssign := ∅, toUnassign := ∅, err := none, written := [] } :=
  ⟨rfl, rfl, ⟨_, List.mem_cons_self _ _, _, rfl, rfl, rfl, rfl, rfl⟩, rfl, rfl⟩

end Mungers
